import Mathlib

/-!
# Verification of the stack transition reconciler

Shallow embedding of `packages/stack/src/vendor/views/Stack/StackView.tsx`:
the static `getDerivedStateFromProps` reconciler and the lifecycle handlers
`handleOpenRoute`, `handleCloseRoute`, together with `getGesturesEnabled`.

JavaScript reference equality (`===` on arrays / descriptor maps) is strictly
finer than structural equality, so the two identity tests performed by the
source (`props.state.routes === state.previousRoutes` and
`props.descriptors !== state.previousDescriptors`) are modelled by explicit
boolean parameters `routesRefEq` / `descriptorsRefEq`; `routesRefEq = true`
is only meaningful together with the structural consequence
`props.state.routes = state.previousRoutes`, which theorems assume where they
need it.  JavaScript runtime type errors (property access on `undefined`) and
the explicit `throw new Error(...)` on an empty route list are modelled by an
`Except JSError` result.
-/

namespace StackView

/-- A route; the reconciler only ever reads `key` (`name`/`params` are opaque
payload it never inspects, so they are omitted). Identity is the key. -/
structure Route where
  key : String
deriving DecidableEq

/-- Values of the option `animationTypeForReplace`, ranging over
`'push' | 'pop'`. -/
inductive ReplaceAnimation where
  | push
  | pop
deriving DecidableEq

/-- Per-route options read by `StackView`: `animationEnabled`,
`animationTypeForReplace` and `gestureEnabled`, each possibly `undefined`
(modelled by `none`). -/
structure Options where
  animationEnabled : Option Bool := none
  animationTypeForReplace : Option ReplaceAnimation := none
  gestureEnabled : Option Bool := none
deriving DecidableEq

/-- A descriptor: the reconciler reads only `options`. -/
structure Descriptor where
  options : Options := {}
deriving DecidableEq

/-- A descriptor map (`StackDescriptorMap`): a JS object keyed by route key. -/
abbrev StackDescriptorMap := List (String × Descriptor)

/-- JS property read `m[key]` on a descriptor map (`undefined` becomes `none`). -/
def dlookup (m : StackDescriptorMap) (k : String) : Option Descriptor :=
  (m.find? (fun p => p.1 == k)).map (·.2)

/-- Lookup `props.descriptors[key] || state.descriptors[key]`: a descriptor
object is always truthy, so `||` is left-biased choice with `undefined`
fallthrough. -/
def descOr (pd sd : StackDescriptorMap) (k : String) : Option Descriptor :=
  match dlookup pd k with
  | some d => some d
  | none => dlookup sd k

/-- The external navigation state: `routes` plus the focused `index`. -/
structure NavigationState where
  index : Nat
  routes : List Route
deriving DecidableEq

/-- The props read by the reconciler: external state and external descriptors. -/
structure Props where
  state : NavigationState
  descriptors : StackDescriptorMap
deriving DecidableEq

/-- The local render state of `StackView` (the component's `State` type). -/
structure State where
  routes : List Route
  previousRoutes : List Route
  previousDescriptors : StackDescriptorMap
  openingRouteKeys : List String
  closingRouteKeys : List String
  replacingRouteKeys : List String
  descriptors : StackDescriptorMap
deriving DecidableEq

/-- JS failure modes of the reconciler: a `TypeError` from reading a property
of `undefined`, and the explicit invariant `throw` ("There should always be at
least one route in the navigation state."). -/
inductive JSError where
  | typeError
  | invariantError
deriving DecidableEq

/-- Closure `isAnimationEnabled`:
`descriptor ? descriptor.options.animationEnabled !== false : true`. -/
def isAnimationEnabled (props : Props) (state : State) (key : String) : Bool :=
  match descOr props.descriptors state.descriptors key with
  | some descriptor => descriptor.options.animationEnabled != some false
  | none => true

/-- Closure `getAnimationTypeForReplace`:
`descriptor.options.animationTypeForReplace ?? 'push'`; reading `.options` of
an `undefined` descriptor is a JS `TypeError`. -/
def getAnimationTypeForReplace (props : Props) (state : State) (key : String) :
    Except JSError ReplaceAnimation :=
  match descOr props.descriptors state.descriptors key with
  | some descriptor => .ok (descriptor.options.animationTypeForReplace.getD .push)
  | none => .error .typeError

/-- Splice `routes.splice(routes.length - 1, 0, ...items)`: insert `items` just
before the last element (at index 0 when the list is empty, matching JS
splice's clamping of the negative start index). -/
def spliceBeforeLast (routes : List Route) (items : List Route) : List Route :=
  routes.dropLast ++ items ++ routes.drop (routes.length - 1)

/-- Truncation of the external routes (source lines 81–86): when the focused
index is before the end, `props.state.routes.slice(0, props.state.index + 1)`,
so that the last visible route is the focused one. -/
def truncatedRoutes (props : Props) : List Route :=
  if (props.state.index : Int) < (props.state.routes.length : Int) - 1 then
    props.state.routes.take (props.state.index + 1)
  else
    props.state.routes

/-- The descriptor re-merge
`routes.reduce((acc, route) => { acc[route.key] = props.descriptors[route.key] || state.descriptors[route.key]; return acc }, {})`
(a key whose merged value is `undefined` is observationally absent from the
object, so it is simply not recorded). -/
def mergeDescriptors (routes : List Route) (pd sd : StackDescriptorMap) :
    StackDescriptorMap :=
  routes.foldl
    (fun acc route =>
      match descOr pd sd route.key with
      | some d => acc ++ [(route.key, d)]
      | none => acc)
    []

/-- The focus-changed branch of `getDerivedStateFromProps` (source lines
113–204), parameterised by the truncated routes, both focused routes and the
current key lists; returns the updated `(routes, opening, closing, replacing)`. -/
def focusChanged (props : Props) (state : State) (routes : List Route)
    (previousFocusedRoute nextFocusedRoute : Route)
    (opening closing replacing : List String) :
    Except JSError (List Route × List String × List String × List String) :=
  if !(state.previousRoutes.any (fun r => r.key == nextFocusedRoute.key)) then
    -- A new route has come to the focus, we treat this as a push
    if isAnimationEnabled props state nextFocusedRoute.key
        && !(opening.contains nextFocusedRoute.key) then
      let opening := opening ++ [nextFocusedRoute.key]
      let closing := closing.filter (fun key => key != nextFocusedRoute.key)
      let replacing := replacing.filter (fun key => key != nextFocusedRoute.key)
      if !(routes.any (fun r => r.key == previousFocusedRoute.key)) then
        -- The previous focused route isn't present in state: a replace
        let opening := opening.filter (fun key => key != previousFocusedRoute.key)
        match getAnimationTypeForReplace props state nextFocusedRoute.key with
        | .error e => .error e
        | .ok .pop =>
          let closing := closing ++ [previousFocusedRoute.key]
          let opening := opening.filter (fun key => key != nextFocusedRoute.key)
          .ok (routes ++ [previousFocusedRoute], opening, closing, replacing)
        | .ok .push =>
          let replacing := replacing ++ [previousFocusedRoute.key]
          let closing := closing.filter (fun key => key != previousFocusedRoute.key)
          .ok (spliceBeforeLast routes [previousFocusedRoute], opening, closing,
               replacing)
      else
        .ok (routes, opening, closing, replacing)
    else
      .ok (routes, opening, closing, replacing)
  else if !(routes.any (fun r => r.key == previousFocusedRoute.key)) then
    -- The previously focused route was removed, we treat this as a pop
    if isAnimationEnabled props state previousFocusedRoute.key
        && !(closing.contains previousFocusedRoute.key) then
      .ok (routes ++ [previousFocusedRoute],
           opening.filter (fun key => key != previousFocusedRoute.key),
           closing ++ [previousFocusedRoute.key],
           replacing.filter (fun key => key != previousFocusedRoute.key))
    else
      .ok (routes, opening, closing, replacing)
  else
    -- Re-arranged routes with both focused routes still present: no animation
    .ok (routes, opening, closing, replacing)

/-- The focus-unchanged re-insertion branch (source lines 205–217): keep the
routes being closed or replaced, when animation is enabled for them, just
before the focused route. -/
def reinsertPending (props : Props) (state : State) (routes : List Route) :
    List Route :=
  if state.replacingRouteKeys.length != 0 || state.closingRouteKeys.length != 0 then
    spliceBeforeLast routes
      (state.routes.filter (fun r =>
        if isAnimationEnabled props state r.key then
          state.replacingRouteKeys.contains r.key
            || state.closingRouteKeys.contains r.key
        else false))
  else
    routes

/-- The slow path of the reconciler up to (but excluding) the final non-empty
check and descriptor merge: focus comparison and dispatch to the
push / replace / pop / re-insertion branches (source lines 81–217).
Reading `nextFocusedRoute.key` when the truncated route list is empty is a JS
`TypeError`. -/
def slowStep (props : Props) (state : State) :
    Except JSError (List Route × List String × List String × List String) :=
  match state.previousRoutes.getLast? with
  | some previousFocusedRoute =>
    match (truncatedRoutes props).getLast? with
    | none => .error .typeError
    | some nextFocusedRoute =>
      if previousFocusedRoute.key != nextFocusedRoute.key then
        focusChanged props state (truncatedRoutes props) previousFocusedRoute
          nextFocusedRoute state.openingRouteKeys state.closingRouteKeys
          state.replacingRouteKeys
      else
        .ok (reinsertPending props state (truncatedRoutes props),
             state.openingRouteKeys, state.closingRouteKeys,
             state.replacingRouteKeys)
  | none =>
    .ok (reinsertPending props state (truncatedRoutes props),
         state.openingRouteKeys, state.closingRouteKeys,
         state.replacingRouteKeys)

/-- Static `StackView.getDerivedStateFromProps`.  `routesRefEq` models
`props.state.routes === state.previousRoutes` and `descriptorsRefEq` models
`props.descriptors === state.previousDescriptors` (JS reference equality).
Returning `null` (no state change) is modelled by returning `state` itself; a
partial state object is modelled by the corresponding merged full state. -/
def getDerivedStateFromProps (props : Props) (state : State)
    (routesRefEq descriptorsRefEq : Bool) : Except JSError State :=
  -- If there was no change in routes, we don't need to compute anything
  if routesRefEq && state.routes.length != 0 then
    if !descriptorsRefEq then
      .ok { state with
        previousDescriptors := props.descriptors,
        descriptors :=
          mergeDescriptors state.routes props.descriptors state.descriptors }
    else
      .ok state
  else
    match slowStep props state with
    | .error e => .error e
    | .ok (routes, opening, closing, replacing) =>
      if routes.isEmpty then
        .error .invariantError
      else
        .ok {
          routes := routes,
          previousRoutes := props.state.routes,
          previousDescriptors := props.descriptors,
          openingRouteKeys := opening,
          closingRouteKeys := closing,
          replacingRouteKeys := replacing,
          descriptors := mergeDescriptors routes props.descriptors state.descriptors }

/-- Result of `handleOpenRoute`: the key dispatched through
`completeTransition` and the updated local state. -/
structure OpenResult where
  completedTransitionKey : String
  state : State
deriving DecidableEq

/-- Handler `handleOpenRoute` (source lines 318–328). -/
def handleOpenRoute (state : State) (route : Route) : OpenResult :=
  { completedTransitionKey := route.key,
    state := { state with
      routes :=
        if state.replacingRouteKeys.length != 0 then
          state.routes.filter (fun r => !(state.replacingRouteKeys.contains r.key))
        else
          state.routes,
      openingRouteKeys :=
        state.openingRouteKeys.filter (fun key => key != route.key),
      closingRouteKeys :=
        state.closingRouteKeys.filter (fun key => key != route.key),
      replacingRouteKeys := [] } }

/-- The upstream effect performed by `handleCloseRoute`: either a
`StackActions.pop({ key })` dispatch, or a `completeTransition` dispatch for
the route that becomes focused. -/
inductive CloseEffect where
  | dispatchPop (key : String)
  | completeTransition (key : String)
deriving DecidableEq

/-- Result of `handleCloseRoute`: the upstream effect and the (possibly
unchanged) local state. -/
structure CloseResult where
  effect : CloseEffect
  state : State
deriving DecidableEq

/-- Computation `const index = this.state.routes.findIndex(...)` inside
`handleCloseRoute`: the position of the closed route in the local render
routes, with JS `findIndex` returning `-1` when absent. -/
def closeIndex (state : State) (route : Route) : Int :=
  match state.routes.findIdx? (fun r => r.key == route.key) with
  | some i => (i : Int)
  | none => -1

/-- Handler `handleCloseRoute` (source lines 330–359), parameterised by the
external `props.state.routes`.  When the closed route is still present
externally only a pop is dispatched; otherwise the route is removed locally
(`this.state.routes[Math.max(index - 1, 0)]` being `undefined` on an empty
render list makes the nested `completeTransition` dispatch a JS `TypeError`). -/
def handleCloseRoute (externalRoutes : List Route) (state : State)
    (route : Route) : Except JSError CloseResult :=
  if externalRoutes.any (fun r => r.key == route.key) then
    .ok { effect := .dispatchPop route.key, state := state }
  else
    match state.routes.get? (max (closeIndex state route - 1) 0).toNat with
    | none => .error .typeError
    | some previous =>
      .ok { effect := .completeTransition previous.key,
            state := { state with
              routes := state.routes.filter (fun r => r.key != route.key),
              openingRouteKeys :=
                state.openingRouteKeys.filter (fun key => key != route.key),
              closingRouteKeys :=
                state.closingRouteKeys.filter (fun key => key != route.key) } }

/-- Query `getGesturesEnabled` (source lines 253–271): looks the route up in
the render state's descriptor map only; `platformOS` models `Platform.OS`. -/
def getGesturesEnabled (platformOS : String) (state : State) (route : Route) :
    Bool :=
  match dlookup state.descriptors route.key with
  | some descriptor =>
    if descriptor.options.animationEnabled == some false then
      false
    else
      match descriptor.options.gestureEnabled with
      | some gestureEnabled => gestureEnabled
      | none => platformOS != "android"
  | none => false

/-- The initial `state` of a freshly mounted `StackView` (source lines
243–251): everything empty. -/
def initialState : State :=
  { routes := [], previousRoutes := [], previousDescriptors := [],
    openingRouteKeys := [], closingRouteKeys := [], replacingRouteKeys := [],
    descriptors := [] }

/-- The state produced by the fast path: unchanged when the descriptors are
also reference-stable, otherwise only the descriptor fields are re-merged. -/
def fastPathResult (props : Props) (state : State) (descriptorsRefEq : Bool) :
    State :=
  if descriptorsRefEq then
    state
  else
    { state with
      previousDescriptors := props.descriptors,
      descriptors :=
        mergeDescriptors state.routes props.descriptors state.descriptors }

/-! ## Decidable properties of key sets -/

/-- Disjointness of two key lists: no key occurs in both. -/
def keysDisjoint (xs ys : List String) : Bool :=
  xs.all (fun k => !(ys.contains k))

/-- Coverage of the keys of `new` relative to `old`: every key of `new` was
already in `old`, or is the key of some route in `routes`. -/
def coveredKeys (old new : List String) (routes : List Route) : Bool :=
  new.all (fun k => old.contains k || routes.any (fun r => r.key == k))

/-- Every key newly added to one of the three key sets in the step from `old`
to `new` is the key of a route present in `new.routes`. -/
def addedKeysInRoutes (old new : State) : Bool :=
  coveredKeys old.openingRouteKeys new.openingRouteKeys new.routes
  && coveredKeys old.closingRouteKeys new.closingRouteKeys new.routes
  && coveredKeys old.replacingRouteKeys new.replacingRouteKeys new.routes

/-- Inclusion of key lists. -/
def subsetKeys (xs ys : List String) : Bool :=
  xs.all (fun k => ys.contains k)

/-! ## Concrete fixtures used by the scenario theorems and witnesses -/

/-- Observable summary of a render state: route keys in order, opening keys,
closing keys, replacing keys. -/
def renderSummary (s : State) :
    List String × List String × List String × List String :=
  (s.routes.map Route.key, s.openingRouteKeys, s.closingRouteKeys,
   s.replacingRouteKeys)

def routeA : Route := ⟨"A"⟩

def routeB : Route := ⟨"B"⟩

def routeX : Route := ⟨"X"⟩

/-- A descriptor with every option left `undefined` (all defaults). -/
def plainDescriptor : Descriptor := {}

/-- A descriptor configuring `animationTypeForReplace: 'pop'`. -/
def popReplaceDescriptor : Descriptor :=
  { options := { animationTypeForReplace := some .pop } }

/-- A descriptor configuring `animationTypeForReplace: 'push'` explicitly. -/
def pushReplaceDescriptor : Descriptor :=
  { options := { animationTypeForReplace := some .push } }

/-- A settled render state showing only route A. -/
def settledA : State :=
  { routes := [routeA], previousRoutes := [routeA],
    previousDescriptors := [("A", plainDescriptor)],
    openingRouteKeys := [], closingRouteKeys := [], replacingRouteKeys := [],
    descriptors := [("A", plainDescriptor)] }

/-- A settled render state showing routes A, B. -/
def settledAB : State :=
  { routes := [routeA, routeB], previousRoutes := [routeA, routeB],
    previousDescriptors := [("A", plainDescriptor), ("B", plainDescriptor)],
    openingRouteKeys := [], closingRouteKeys := [], replacingRouteKeys := [],
    descriptors := [("A", plainDescriptor), ("B", plainDescriptor)] }

/-- A settled render state showing routes A, X. -/
def settledAX : State :=
  { routes := [routeA, routeX], previousRoutes := [routeA, routeX],
    previousDescriptors := [("A", plainDescriptor), ("X", plainDescriptor)],
    openingRouteKeys := [], closingRouteKeys := [], replacingRouteKeys := [],
    descriptors := [("A", plainDescriptor), ("X", plainDescriptor)] }

/-- Like `settledA`, but A's descriptor sets `animationTypeForReplace: 'pop'`. -/
def settledA_popReplace : State :=
  { settledA with
    previousDescriptors := [("A", popReplaceDescriptor)],
    descriptors := [("A", popReplaceDescriptor)] }

/-- Like `settledA`, but A's descriptor sets `animationTypeForReplace: 'push'`. -/
def settledA_pushReplace : State :=
  { settledA with
    previousDescriptors := [("A", pushReplaceDescriptor)],
    descriptors := [("A", pushReplaceDescriptor)] }

/-- External update replacing everything by route B (with a default
descriptor for B). -/
def propsReplaceByB : Props :=
  { state := { index := 0, routes := [routeB] },
    descriptors := [("B", plainDescriptor)] }

/-- External update replacing everything by route B, where B's descriptor
sets `animationTypeForReplace: 'pop'`. -/
def propsReplaceByB_pop : Props :=
  { state := { index := 0, routes := [routeB] },
    descriptors := [("B", popReplaceDescriptor)] }

/-- External update popping down to route A alone. -/
def propsPopToA : Props :=
  { state := { index := 0, routes := [routeA] },
    descriptors := [("A", plainDescriptor)] }

/-- External update pushing route B on top of route A (focus on B). -/
def propsPushB : Props :=
  { state := { index := 1, routes := [routeA, routeB] },
    descriptors := [("A", plainDescriptor), ("B", plainDescriptor)] }

/-! ## Helper lemmas -/

theorem keysDisjoint_iff (xs ys : List String) :
    keysDisjoint xs ys = true ↔ ∀ k ∈ xs, k ∉ ys := by
  simp [keysDisjoint, List.elem_iff]

theorem coveredKeys_iff (old new : List String) (routes : List Route) :
    coveredKeys old new routes = true
      ↔ ∀ k ∈ new, k ∈ old ∨ ∃ r ∈ routes, r.key = k := by
  simp [coveredKeys, List.elem_iff, List.any_eq_true, beq_iff_eq]

theorem subsetKeys_iff (xs ys : List String) :
    subsetKeys xs ys = true ↔ ∀ k ∈ xs, k ∈ ys := by
  simp [subsetKeys, List.elem_iff]

theorem spliceBeforeLast_ne_nil (rs items : List Route) (h : rs ≠ []) :
    spliceBeforeLast rs items ≠ [] := by
  unfold spliceBeforeLast
  intro hc
  rcases List.append_eq_nil.mp hc with ⟨h1, h4⟩
  have hlen : rs.length ≤ rs.length - 1 := by
    rw [← List.drop_eq_nil_iff]
    exact h4
  have hpos : 0 < rs.length := List.length_pos.mpr h
  omega

theorem spliceBeforeLast_single_ne_nil (rs : List Route) (x : Route) :
    spliceBeforeLast rs [x] ≠ [] := by
  simp [spliceBeforeLast]

theorem truncatedRoutes_ne_nil (props : Props)
    (hne : props.state.routes ≠ []) : truncatedRoutes props ≠ [] := by
  unfold truncatedRoutes
  split
  · cases hr : props.state.routes with
    | nil => exact absurd hr hne
    | cons a t => simp [hr]
  · exact hne

theorem truncatedRoutes_subset (props : Props) :
    truncatedRoutes props ⊆ props.state.routes := by
  unfold truncatedRoutes
  split
  · exact List.take_subset _ _
  · exact fun _ h => h

theorem reinsertPending_ne_nil (props : Props) (state : State)
    (rs : List Route) (h : rs ≠ []) : reinsertPending props state rs ≠ [] := by
  unfold reinsertPending
  split
  · exact spliceBeforeLast_ne_nil _ _ h
  · exact h

theorem drop_pred_of_getLast? (rs : List Route) (nf : Route)
    (h : rs.getLast? = some nf) : rs.drop (rs.length - 1) = [nf] := by
  induction rs with
  | nil => cases h
  | cons a t ih =>
    cases t with
    | nil =>
      simp only [List.getLast?_singleton, Option.some.injEq] at h
      simp [h]
    | cons b t' =>
      have h' : (b :: t').getLast? = some nf := by
        rw [List.getLast?_cons_cons] at h
        exact h
      have hih := ih h'
      simp only [List.length_cons, Nat.add_sub_cancel] at hih ⊢
      rw [List.drop_succ_cons]
      exact hih

theorem getLast_mem_spliceBeforeLast (rs items : List Route) (nf : Route)
    (h : rs.getLast? = some nf) : nf ∈ spliceBeforeLast rs items := by
  unfold spliceBeforeLast
  rw [drop_pred_of_getLast? rs nf h]
  simp

theorem mem_spliceBeforeLast_of_mem_items (rs items : List Route) (x : Route)
    (h : x ∈ items) : x ∈ spliceBeforeLast rs items := by
  simp [spliceBeforeLast, h]

/-- Exhaustive characterisation of `focusChanged`'s successful outcomes: no
change, plain push, pop-style replace, push-style replace, or pop. -/
theorem focusChanged_spec (props : Props) (state : State) (rs : List Route)
    (pf nf : Route) (o c rp : List String) (rs' : List Route)
    (o' c' rp' : List String)
    (h : focusChanged props state rs pf nf o c rp = .ok (rs', o', c', rp')) :
    (rs' = rs ∧ o' = o ∧ c' = c ∧ rp' = rp)
    ∨ (rs' = rs ∧ o' = o ++ [nf.key]
        ∧ c' = c.filter (fun k => k != nf.key)
        ∧ rp' = rp.filter (fun k => k != nf.key))
    ∨ (rs' = rs ++ [pf]
        ∧ o' = ((o ++ [nf.key]).filter (fun k => k != pf.key)).filter
            (fun k => k != nf.key)
        ∧ c' = c.filter (fun k => k != nf.key) ++ [pf.key]
        ∧ rp' = rp.filter (fun k => k != nf.key))
    ∨ (rs' = spliceBeforeLast rs [pf]
        ∧ o' = (o ++ [nf.key]).filter (fun k => k != pf.key)
        ∧ c' = (c.filter (fun k => k != nf.key)).filter (fun k => k != pf.key)
        ∧ rp' = rp.filter (fun k => k != nf.key) ++ [pf.key])
    ∨ (rs' = rs ++ [pf]
        ∧ o' = o.filter (fun k => k != pf.key)
        ∧ c' = c ++ [pf.key]
        ∧ rp' = rp.filter (fun k => k != pf.key)) := by
  simp only [focusChanged] at h
  split at h
  · split at h
    · split at h
      · split at h
        · exact Except.noConfusion h
        · injection h with h1
          injection h1 with e1 h2
          injection h2 with e2 h3
          injection h3 with e3 e4
          exact Or.inr (Or.inr (Or.inl ⟨e1.symm, e2.symm, e3.symm, e4.symm⟩))
        · injection h with h1
          injection h1 with e1 h2
          injection h2 with e2 h3
          injection h3 with e3 e4
          exact Or.inr (Or.inr (Or.inr (Or.inl
            ⟨e1.symm, e2.symm, e3.symm, e4.symm⟩)))
      · injection h with h1
        injection h1 with e1 h2
        injection h2 with e2 h3
        injection h3 with e3 e4
        exact Or.inr (Or.inl ⟨e1.symm, e2.symm, e3.symm, e4.symm⟩)
    · injection h with h1
      injection h1 with e1 h2
      injection h2 with e2 h3
      injection h3 with e3 e4
      exact Or.inl ⟨e1.symm, e2.symm, e3.symm, e4.symm⟩
  · split at h
    · split at h
      · injection h with h1
        injection h1 with e1 h2
        injection h2 with e2 h3
        injection h3 with e3 e4
        exact Or.inr (Or.inr (Or.inr (Or.inr
          ⟨e1.symm, e2.symm, e3.symm, e4.symm⟩)))
      · injection h with h1
        injection h1 with e1 h2
        injection h2 with e2 h3
        injection h3 with e3 e4
        exact Or.inl ⟨e1.symm, e2.symm, e3.symm, e4.symm⟩
    · injection h with h1
      injection h1 with e1 h2
      injection h2 with e2 h3
      injection h3 with e3 e4
      exact Or.inl ⟨e1.symm, e2.symm, e3.symm, e4.symm⟩

/-- When the next focused route has a descriptor (externally or retained),
`focusChanged` cannot raise the `TypeError` of `getAnimationTypeForReplace`. -/
theorem focusChanged_isOk (props : Props) (state : State) (rs : List Route)
    (pf nf : Route) (o c rp : List String)
    (hds : (descOr props.descriptors state.descriptors nf.key).isSome = true) :
    ∃ out, focusChanged props state rs pf nf o c rp = .ok out := by
  obtain ⟨d, hd⟩ := Option.isSome_iff_exists.mp hds
  simp only [focusChanged, getAnimationTypeForReplace, hd]
  split
  · split
    · split
      · split
        next heq => exact Except.noConfusion heq
        next heq => exact ⟨_, rfl⟩
        next heq => exact ⟨_, rfl⟩
      · exact ⟨_, rfl⟩
    · exact ⟨_, rfl⟩
  · split
    · split
      · exact ⟨_, rfl⟩
      · exact ⟨_, rfl⟩
    · exact ⟨_, rfl⟩

/-- Disjointness of the opening and closing key lists is preserved by
`focusChanged`. -/
theorem focusChanged_disjoint (props : Props) (state : State) (rs : List Route)
    (pf nf : Route) (o c rp : List String) (rs' : List Route)
    (o' c' rp' : List String)
    (hd : ∀ k ∈ o, k ∉ c)
    (h : focusChanged props state rs pf nf o c rp = .ok (rs', o', c', rp')) :
    ∀ k ∈ o', k ∉ c' := by
  rcases focusChanged_spec props state rs pf nf o c rp rs' o' c' rp' h with
    ⟨_, ho, hc, _⟩ | ⟨_, ho, hc, _⟩ | ⟨_, ho, hc, _⟩ | ⟨_, ho, hc, _⟩ |
    ⟨_, ho, hc, _⟩ <;>
    subst ho <;> subst hc <;> intro k hk hkc <;>
    (try simp only [List.mem_filter, List.mem_append, List.mem_singleton,
      bne_iff_ne, ne_eq, decide_eq_true_eq] at hk hkc) <;>
    have hdk := fun hko => hd k hko
  · exact hdk hk hkc
  · rcases hk with hk | hk
    · exact hdk hk hkc.1
    · exact hkc.2 hk
  · rcases hkc with hkc | hkc
    · rcases hk.1.1 with hko | hko
      · exact hdk hko hkc.1
      · exact hk.2 hko
    · exact hk.1.2 hkc
  · rcases hk.1 with hko | hko
    · exact hdk hko hkc.1.1
    · exact hkc.1.2 hko
  · rcases hkc with hkc | hkc
    · exact hdk hk.1 hkc
    · exact hk.2 hkc

/-- Every key added by `focusChanged` to one of the key lists is the key of a
route in the resulting route list (given that the next focused route is the
last of the incoming truncated routes). -/
theorem focusChanged_added_keys (props : Props) (state : State)
    (rs : List Route) (pf nf : Route) (o c rp : List String)
    (rs' : List Route) (o' c' rp' : List String)
    (hnf : rs.getLast? = some nf)
    (h : focusChanged props state rs pf nf o c rp = .ok (rs', o', c', rp')) :
    (∀ k ∈ o', k ∈ o ∨ ∃ r ∈ rs', r.key = k)
    ∧ (∀ k ∈ c', k ∈ c ∨ ∃ r ∈ rs', r.key = k)
    ∧ (∀ k ∈ rp', k ∈ rp ∨ ∃ r ∈ rs', r.key = k) := by
  have hnfrs : nf ∈ rs := List.mem_of_mem_getLast? hnf
  rcases focusChanged_spec props state rs pf nf o c rp rs' o' c' rp' h with
    ⟨hr, ho, hc, hp⟩ | ⟨hr, ho, hc, hp⟩ | ⟨hr, ho, hc, hp⟩ | ⟨hr, ho, hc, hp⟩ |
    ⟨hr, ho, hc, hp⟩ <;> subst hr <;> subst ho <;> subst hc <;> subst hp
  · exact ⟨fun k hk => Or.inl hk, fun k hk => Or.inl hk, fun k hk => Or.inl hk⟩
  · refine ⟨?_, ?_, ?_⟩
    · intro k hk
      rcases List.mem_append.mp hk with hk | hk
      · exact Or.inl hk
      · exact Or.inr ⟨nf, hnfrs, (List.mem_singleton.mp hk).symm⟩
    · intro k hk
      exact Or.inl (List.mem_filter.mp hk).1
    · intro k hk
      exact Or.inl (List.mem_filter.mp hk).1
  · refine ⟨?_, ?_, ?_⟩
    · intro k hk
      have h1 := (List.mem_filter.mp hk).1
      have h2 := (List.mem_filter.mp h1).1
      rcases List.mem_append.mp h2 with hko | hko
      · exact Or.inl hko
      · exact absurd (List.mem_singleton.mp hko)
          (by simpa using (List.mem_filter.mp hk).2)
    · intro k hk
      rcases List.mem_append.mp hk with hk | hk
      · exact Or.inl (List.mem_filter.mp hk).1
      · refine Or.inr ⟨pf, List.mem_append.mpr (Or.inr ?_),
          (List.mem_singleton.mp hk).symm⟩
        exact List.mem_singleton.mpr rfl
    · intro k hk
      exact Or.inl (List.mem_filter.mp hk).1
  · refine ⟨?_, ?_, ?_⟩
    · intro k hk
      rcases List.mem_append.mp (List.mem_filter.mp hk).1 with hko | hko
      · exact Or.inl hko
      · refine Or.inr ⟨nf, getLast_mem_spliceBeforeLast rs [pf] nf hnf,
          (List.mem_singleton.mp hko).symm⟩
    · intro k hk
      exact Or.inl (List.mem_filter.mp (List.mem_filter.mp hk).1).1
    · intro k hk
      rcases List.mem_append.mp hk with hk | hk
      · exact Or.inl (List.mem_filter.mp hk).1
      · refine Or.inr ⟨pf, mem_spliceBeforeLast_of_mem_items rs [pf] pf ?_,
          (List.mem_singleton.mp hk).symm⟩
        exact List.mem_singleton.mpr rfl
  · refine ⟨?_, ?_, ?_⟩
    · intro k hk
      exact Or.inl (List.mem_filter.mp hk).1
    · intro k hk
      rcases List.mem_append.mp hk with hk | hk
      · exact Or.inl hk
      · refine Or.inr ⟨pf, List.mem_append.mpr (Or.inr ?_),
          (List.mem_singleton.mp hk).symm⟩
        exact List.mem_singleton.mpr rfl
    · intro k hk
      exact Or.inl (List.mem_filter.mp hk).1

theorem coveredKeys_refl (xs : List String) (routes : List Route) :
    coveredKeys xs xs routes = true := by
  rw [coveredKeys_iff]
  exact fun k hk => Or.inl hk

theorem subsetKeys_refl (xs : List String) : subsetKeys xs xs = true := by
  rw [subsetKeys_iff]
  exact fun k hk => hk

/-- A successful `slowStep` either comes from the focus-unchanged branch
(key lists untouched, routes re-inserted) or from `focusChanged` on the two
focused routes. -/
theorem slowStep_cases (props : Props) (state : State) (rs' : List Route)
    (o' c' rp' : List String)
    (h : slowStep props state = .ok (rs', o', c', rp')) :
    (rs' = reinsertPending props state (truncatedRoutes props)
      ∧ o' = state.openingRouteKeys ∧ c' = state.closingRouteKeys
      ∧ rp' = state.replacingRouteKeys)
    ∨ (∃ pf nf, state.previousRoutes.getLast? = some pf
        ∧ (truncatedRoutes props).getLast? = some nf
        ∧ focusChanged props state (truncatedRoutes props) pf nf
            state.openingRouteKeys state.closingRouteKeys
            state.replacingRouteKeys = .ok (rs', o', c', rp')) := by
  unfold slowStep at h
  split at h
  next pf hpf =>
    split at h
    next => exact Except.noConfusion h
    next nf hnf =>
      split at h
      · exact Or.inr ⟨pf, nf, hpf, hnf, h⟩
      · simp only [Except.ok.injEq, Prod.mk.injEq] at h
        exact Or.inl ⟨h.1.symm, h.2.1.symm, h.2.2.1.symm, h.2.2.2.symm⟩
  next hpf =>
    simp only [Except.ok.injEq, Prod.mk.injEq] at h
    exact Or.inl ⟨h.1.symm, h.2.1.symm, h.2.2.1.symm, h.2.2.2.symm⟩

/-- Under a well-formed external state (non-empty routes, a descriptor for
every external route), `slowStep` cannot raise a `TypeError`. -/
theorem slowStep_no_error (props : Props) (state : State)
    (hne : props.state.routes ≠ [])
    (hdesc : ∀ r ∈ props.state.routes,
      (dlookup props.descriptors r.key).isSome = true) :
    ∀ e, slowStep props state = .error e → False := by
  have htr : truncatedRoutes props ≠ [] := truncatedRoutes_ne_nil props hne
  intro e h
  unfold slowStep at h
  split at h
  next pf hpf =>
    split at h
    next hnone =>
      exact htr (List.getLast?_eq_none_iff.mp hnone)
    next nf hnf =>
      split at h
      · have hnfmem : nf ∈ props.state.routes :=
          truncatedRoutes_subset props (List.mem_of_mem_getLast? hnf)
        have hds : (descOr props.descriptors state.descriptors nf.key).isSome
            = true := by
          have h1 := hdesc nf hnfmem
          unfold descOr
          cases h2 : dlookup props.descriptors nf.key with
          | some d => rfl
          | none => rw [h2] at h1; exact absurd h1 (by simp)
        obtain ⟨out, hout⟩ := focusChanged_isOk props state
          (truncatedRoutes props) pf nf state.openingRouteKeys
          state.closingRouteKeys state.replacingRouteKeys hds
        rw [hout] at h
        exact Except.noConfusion h
      · exact Except.noConfusion h
  next hpf => exact Except.noConfusion h

/-- A successful `slowStep` under a non-empty external route list yields a
non-empty route list. -/
theorem slowStep_routes_ne_nil (props : Props) (state : State)
    (rs' : List Route) (o' c' rp' : List String)
    (hne : props.state.routes ≠ [])
    (h : slowStep props state = .ok (rs', o', c', rp')) : rs' ≠ [] := by
  have htr : truncatedRoutes props ≠ [] := truncatedRoutes_ne_nil props hne
  rcases slowStep_cases props state rs' o' c' rp' h with
    ⟨hr, _, _, _⟩ | ⟨pf, nf, hpf, hnf, hfc⟩
  · rw [hr]
    exact reinsertPending_ne_nil _ _ _ htr
  · rcases focusChanged_spec props state (truncatedRoutes props) pf nf
        state.openingRouteKeys state.closingRouteKeys
        state.replacingRouteKeys rs' o' c' rp' hfc with
      ⟨hr, _, _, _⟩ | ⟨hr, _, _, _⟩ | ⟨hr, _, _, _⟩ | ⟨hr, _, _, _⟩ |
      ⟨hr, _, _, _⟩
    · rw [hr]; exact htr
    · rw [hr]; exact htr
    · rw [hr]; simp
    · rw [hr]; exact spliceBeforeLast_single_ne_nil _ _
    · rw [hr]; simp

/-! ## Claim theorems -/

/-- C1, counterexample.  Rendered `routes=[A]` are replaced externally by
`routes=[B]`, and it is A's descriptor that sets
`animationTypeForReplace: 'pop'` (B's leaves it `undefined`).  The claim says
the result is `routes=[B,A]`, `leavingKeys={A}`, `enteringKeys={}`; the code
instead looks the style up from the NEW focused route B (default `'push'`)
and produces the push-style replace `routes=[A,B]`, `enteringKeys={B}`,
`leavingKeys={}`, `replacingKeys={A}`. -/
theorem replaceStyle_from_previous_refuted :
    (getDerivedStateFromProps propsReplaceByB settledA_popReplace false
        false).toOption.map renderSummary
      = some (["A", "B"], ["B"], [], ["A"])
    ∧ (getDerivedStateFromProps propsReplaceByB settledA_popReplace false
        false).toOption.map renderSummary
      ≠ some (["B", "A"], [], ["A"], []) := by
  decide

/-- C1, amended.  The replace-animation style is looked up from the NEXT
(newly focused) route's descriptor, default `'push'`: with rendered
`routes=[A]` (whose descriptor explicitly sets the style to `'push'`)
replaced externally by `routes=[B]` whose descriptor sets the style to
`'pop'`, the result is `routes=[B,A]`, `leavingKeys={A}`, `enteringKeys={}`,
`replacingKeys={}`. -/
theorem replaceStyle_from_next_focused :
    (getDerivedStateFromProps propsReplaceByB_pop settledA_pushReplace false
        false).toOption.map renderSummary
      = some (["B", "A"], [], ["A"], []) := by
  decide

/-- C3.  Fast path: when `next.routes` is reference-equal to the previously
seen routes (`routesRefEq = true`) and the previous render routes list is
non-empty, the reconciler changes no route list and no key set — at most the
descriptors are re-merged (the result is `fastPathResult`, which differs from
`state` in the descriptor fields only); when the descriptors are also
reference-stable the state is returned unchanged, and a second call on the
result with both inputs unchanged returns it identically. -/
theorem fastPath_only_remerges_descriptors (props : Props) (state : State)
    (dEq : Bool) (hne : state.routes ≠ []) :
    getDerivedStateFromProps props state true dEq
      = .ok (fastPathResult props state dEq)
    ∧ (fastPathResult props state dEq).routes = state.routes
    ∧ (fastPathResult props state dEq).openingRouteKeys
        = state.openingRouteKeys
    ∧ (fastPathResult props state dEq).closingRouteKeys
        = state.closingRouteKeys
    ∧ (fastPathResult props state dEq).replacingRouteKeys
        = state.replacingRouteKeys
    ∧ (fastPathResult props state dEq).previousRoutes = state.previousRoutes
    ∧ (dEq = true → fastPathResult props state dEq = state)
    ∧ getDerivedStateFromProps props (fastPathResult props state dEq) true true
      = .ok (fastPathResult props state dEq) := by
  have hlen : (state.routes.length != 0) = true := by
    simp only [bne_iff_ne, ne_eq]
    intro h0
    exact hne (List.length_eq_zero.mp h0)
  have hmain : getDerivedStateFromProps props state true dEq
      = .ok (fastPathResult props state dEq) := by
    cases dEq <;> simp [getDerivedStateFromProps, fastPathResult, hlen]
  have hroutes : (fastPathResult props state dEq).routes = state.routes := by
    cases dEq <;> rfl
  have hlen2 : ((fastPathResult props state dEq).routes.length != 0) = true := by
    rw [hroutes]
    exact hlen
  refine ⟨hmain, hroutes, ?_, ?_, ?_, ?_, ?_, ?_⟩
  · cases dEq <;> rfl
  · cases dEq <;> rfl
  · cases dEq <;> rfl
  · cases dEq <;> rfl
  · intro h
    subst h
    rfl
  · simp [getDerivedStateFromProps, hlen2]

/-- C3, witness: fast path on `settledA` with changed descriptors. -/
theorem fastPath_only_remerges_descriptors_witness :
    getDerivedStateFromProps propsReplaceByB settledA true false
      = .ok (fastPathResult propsReplaceByB settledA false) :=
  (fastPath_only_remerges_descriptors propsReplaceByB settledA false
    (by decide)).1

/-- C5.  Pop behaviour: from rendered `routes=[A,B]` (settled), the external
update to `routes=[A]` yields rendered `routes=[A,B]` with B retained at the
tail and `leavingKeys={B}`; the subsequent `onExitComplete(B)` with B absent
from the external routes removes B from the local routes and from the
entering and leaving key sets, yielding `routes=[A]`. -/
theorem pop_scenario :
    (getDerivedStateFromProps propsPopToA settledAB false false).toOption.map
        renderSummary
      = some (["A", "B"], [], ["B"], [])
    ∧ ((getDerivedStateFromProps propsPopToA settledAB false false).bind
        (fun s1 => handleCloseRoute [routeA] s1 routeB)).toOption.map
        (fun cr => (cr.state.routes.map Route.key,
                    cr.state.openingRouteKeys, cr.state.closingRouteKeys))
      = some (["A"], [], []) := by
  decide

/-- C6.  Replace with the default push style: from rendered `routes=[A]`
(settled), the external update to `routes=[B]` (no `'pop'` style configured)
yields `routes=[A,B]` (A inserted just before the focused route),
`replacingKeys={A}` and `enteringKeys={B}`; the subsequent
`onEnterComplete(B)` drops every route marked replacing and clears
`replacingKeys`, yielding `routes=[B]`, `replacingKeys={}`. -/
theorem replace_push_scenario :
    (getDerivedStateFromProps propsReplaceByB settledA false false).toOption.map
        renderSummary
      = some (["A", "B"], ["B"], [], ["A"])
    ∧ ((getDerivedStateFromProps propsReplaceByB settledA false
        false).toOption.map
        (fun s1 => renderSummary (handleOpenRoute s1 routeB).state))
      = some (["B"], [], [], []) := by
  decide

/-- C7.  When `handleCloseRoute` is invoked for a route whose key is still
present in the external routes, it dispatches a pop for that key and performs
no synchronous mutation of the local render state. -/
theorem closeRoute_still_external (externalRoutes : List Route) (state : State)
    (route : Route)
    (h : externalRoutes.any (fun r => r.key == route.key) = true) :
    handleCloseRoute externalRoutes state route
      = .ok { effect := .dispatchPop route.key, state := state } := by
  unfold handleCloseRoute
  rw [h]
  rfl

/-- C7, witness: closing route A while A is still in the external routes. -/
theorem closeRoute_still_external_witness :
    handleCloseRoute [routeA] settledAB routeA
      = .ok { effect := .dispatchPop routeA.key, state := settledAB } :=
  closeRoute_still_external [routeA] settledAB routeA (by decide)

/-- C8.  Push behaviour: from rendered `routes=[A]` (settled), the external
update to `routes=[A,B]` with the focus on B yields rendered `routes=[A,B]`,
`enteringKeys={B}`, and leaves `leavingKeys` and `replacingKeys` empty. -/
theorem push_scenario :
    (getDerivedStateFromProps propsPushB settledA false false).toOption.map
        renderSummary
      = some (["A", "B"], ["B"], [], []) := by
  decide

/-- C2.  Under a well-formed external state (a navigation state always has at
least one route, and every external route has an external descriptor), the
reconciler either returns a render state with at least one route or raises the
fatal invariant error; it never returns an empty route list. -/
theorem reconcile_nonempty_or_invariant (props : Props) (state : State)
    (rEq dEq : Bool) (hne : props.state.routes ≠ [])
    (hdesc : ∀ r ∈ props.state.routes,
      (dlookup props.descriptors r.key).isSome = true) :
    (match getDerivedStateFromProps props state rEq dEq with
     | .ok s => 1 ≤ s.routes.length
     | .error e => e = JSError.invariantError) := by
  cases hres : getDerivedStateFromProps props state rEq dEq with
  | ok s =>
    show 1 ≤ s.routes.length
    unfold getDerivedStateFromProps at hres
    split at hres
    next hfast =>
      have hlen : state.routes.length ≠ 0 := by
        have h2 := ((Bool.and_eq_true _ _).mp hfast).2
        simpa [bne_iff_ne] using h2
      split at hres <;>
        (simp only [Except.ok.injEq] at hres; subst hres;
         show 1 ≤ state.routes.length; omega)
    next =>
      split at hres
      next => exact Except.noConfusion hres
      next rs' o' c' rp' heq =>
        split at hres
        · exact Except.noConfusion hres
        next hempty =>
          have hrs : rs' ≠ [] :=
            slowStep_routes_ne_nil props state rs' o' c' rp' hne heq
          simp only [Except.ok.injEq] at hres
          subst hres
          exact List.length_pos.mpr hrs
  | error e =>
    show e = JSError.invariantError
    unfold getDerivedStateFromProps at hres
    split at hres
    · split at hres <;> exact Except.noConfusion hres
    · split at hres
      next e' heq =>
        exact absurd heq (fun hc => slowStep_no_error props state hne hdesc e' hc)
      next rs' o' c' rp' heq =>
        split at hres
        · injection hres with h1
          exact h1.symm
        · exact Except.noConfusion hres

/-- C2, witness: a push update on a settled single-route stack. -/
theorem reconcile_nonempty_or_invariant_witness :
    (match getDerivedStateFromProps propsPushB settledA false false with
     | .ok s => 1 ≤ s.routes.length
     | .error e => e = JSError.invariantError) :=
  reconcile_nonempty_or_invariant propsPushB settledA false false (by decide)
    (by decide)

/-- C4.  Disjointness of `enteringKeys` (opening) and `leavingKeys` (closing):
it holds in the initial mount state, and it is preserved by the reconciler and
by both lifecycle handlers, so no reachable render state has a key in both
sets at once. -/
theorem openingClosing_disjoint (props : Props) (state : State)
    (rEq dEq : Bool) (s : State) (route : Route)
    (externalRoutes : List Route) (cr : CloseResult)
    (hd : keysDisjoint state.openingRouteKeys state.closingRouteKeys = true) :
    keysDisjoint initialState.openingRouteKeys initialState.closingRouteKeys
      = true
    ∧ (getDerivedStateFromProps props state rEq dEq = .ok s →
        keysDisjoint s.openingRouteKeys s.closingRouteKeys = true)
    ∧ keysDisjoint (handleOpenRoute state route).state.openingRouteKeys
        (handleOpenRoute state route).state.closingRouteKeys = true
    ∧ (handleCloseRoute externalRoutes state route = .ok cr →
        keysDisjoint cr.state.openingRouteKeys cr.state.closingRouteKeys
          = true) := by
  rw [keysDisjoint_iff] at hd
  refine ⟨rfl, ?_, ?_, ?_⟩
  · intro hres
    rw [keysDisjoint_iff]
    unfold getDerivedStateFromProps at hres
    split at hres
    · split at hres <;>
        (simp only [Except.ok.injEq] at hres; subst hres; exact hd)
    · split at hres
      next => exact Except.noConfusion hres
      next rs' o' c' rp' heq =>
        split at hres
        · exact Except.noConfusion hres
        · simp only [Except.ok.injEq] at hres
          subst hres
          rcases slowStep_cases props state rs' o' c' rp' heq with
            ⟨_, ho, hc, _⟩ | ⟨pf, nf, hpf, hnf, hfc⟩
          · subst ho; subst hc; exact hd
          · exact focusChanged_disjoint props state (truncatedRoutes props)
              pf nf state.openingRouteKeys state.closingRouteKeys
              state.replacingRouteKeys rs' o' c' rp' hd hfc
  · rw [keysDisjoint_iff]
    intro k hk hkc
    exact hd k (List.mem_filter.mp hk).1 (List.mem_filter.mp hkc).1
  · intro hres
    rw [keysDisjoint_iff]
    unfold handleCloseRoute at hres
    split at hres
    · simp only [Except.ok.injEq] at hres
      subst hres
      exact hd
    · split at hres <;>
        first
        | exact Except.noConfusion hres
        | (simp only [Except.ok.injEq] at hres
           subst hres
           intro k hk hkc
           exact hd k (List.mem_filter.mp hk).1 (List.mem_filter.mp hkc).1)

/-- C4, witness: the disjointness conclusions at the push scenario's input. -/
theorem openingClosing_disjoint_witness :
    keysDisjoint initialState.openingRouteKeys initialState.closingRouteKeys
      = true
    ∧ keysDisjoint (handleOpenRoute settledA routeA).state.openingRouteKeys
        (handleOpenRoute settledA routeA).state.closingRouteKeys = true :=
  ⟨(openingClosing_disjoint propsPushB settledA false false settledA routeA
      [routeA] ⟨.dispatchPop "A", settledA⟩ (by decide)).1,
   (openingClosing_disjoint propsPushB settledA false false settledA routeA
      [routeA] ⟨.dispatchPop "A", settledA⟩ (by decide)).2.2.1⟩

/-- C9, counterexample.  Start settled on `routes=[A,X]`; an external pop to
`routes=[A]` retains X with `leavingKeys={X}`; a subsequent external push to
`routes=[A,B]` (focus B) before X's exit animation completes drops X from the
render list but leaves `"X"` in `closingRouteKeys`: a key in a lifecycle set
with no corresponding route, refuting the claimed invariant. -/
theorem keySets_subset_routes_refuted :
    ((getDerivedStateFromProps propsPopToA settledAX false false).bind
      (fun s1 => getDerivedStateFromProps propsPushB s1 false false)).toOption.map
      (fun s2 => (s2.closingRouteKeys.contains "X",
                  s2.routes.any (fun r => r.key == "X")))
    = some (true, false) := by
  decide

/-- C9, amended.  Every key NEWLY ADDED to `enteringKeys`, `leavingKeys` or
`replacingKeys` by a reconcile step is the key of a route present in the
resulting route list, and the lifecycle handlers only ever remove keys from
the key sets; however, a key added by an earlier transition may persist in a
key set after a later reconcile has dropped its route (see the
counterexample). -/
theorem newKeys_have_routes (props : Props) (state : State) (rEq dEq : Bool)
    (route : Route) (externalRoutes : List Route) :
    (match getDerivedStateFromProps props state rEq dEq with
     | .ok s => addedKeysInRoutes state s
     | .error _ => true) = true
    ∧ subsetKeys (handleOpenRoute state route).state.openingRouteKeys
        state.openingRouteKeys = true
    ∧ subsetKeys (handleOpenRoute state route).state.closingRouteKeys
        state.closingRouteKeys = true
    ∧ (handleOpenRoute state route).state.replacingRouteKeys = []
    ∧ (match handleCloseRoute externalRoutes state route with
       | .ok cr =>
         subsetKeys cr.state.openingRouteKeys state.openingRouteKeys
         && subsetKeys cr.state.closingRouteKeys state.closingRouteKeys
         && subsetKeys cr.state.replacingRouteKeys state.replacingRouteKeys
       | .error _ => true) = true := by
  refine ⟨?_, ?_, ?_, rfl, ?_⟩
  · cases hres : getDerivedStateFromProps props state rEq dEq with
    | error e => rfl
    | ok s =>
      show addedKeysInRoutes state s = true
      unfold getDerivedStateFromProps at hres
      split at hres
      · split at hres <;>
          (simp only [Except.ok.injEq] at hres; subst hres;
           simp [addedKeysInRoutes, coveredKeys_refl])
      · split at hres
        next => exact Except.noConfusion hres
        next rs' o' c' rp' heq =>
          split at hres
          · exact Except.noConfusion hres
          · simp only [Except.ok.injEq] at hres
            subst hres
            rcases slowStep_cases props state rs' o' c' rp' heq with
              ⟨_, ho, hc, hp⟩ | ⟨pf, nf, hpf, hnf, hfc⟩
            · subst ho; subst hc; subst hp
              simp [addedKeysInRoutes, coveredKeys_refl]
            · have hadd := focusChanged_added_keys props state
                (truncatedRoutes props) pf nf state.openingRouteKeys
                state.closingRouteKeys state.replacingRouteKeys rs' o' c' rp'
                hnf hfc
              simp only [addedKeysInRoutes, Bool.and_eq_true]
              refine ⟨⟨?_, ?_⟩, ?_⟩
              · rw [coveredKeys_iff]
                exact hadd.1
              · rw [coveredKeys_iff]
                exact hadd.2.1
              · rw [coveredKeys_iff]
                exact hadd.2.2
  · rw [subsetKeys_iff]
    exact fun k hk => (List.mem_filter.mp hk).1
  · rw [subsetKeys_iff]
    exact fun k hk => (List.mem_filter.mp hk).1
  · cases hres : handleCloseRoute externalRoutes state route with
    | error e => rfl
    | ok cr =>
      show (subsetKeys cr.state.openingRouteKeys state.openingRouteKeys
        && subsetKeys cr.state.closingRouteKeys state.closingRouteKeys
        && subsetKeys cr.state.replacingRouteKeys state.replacingRouteKeys)
          = true
      unfold handleCloseRoute at hres
      split at hres
      · simp only [Except.ok.injEq] at hres
        subst hres
        simp [subsetKeys_refl]
      · split at hres <;>
          first
          | exact Except.noConfusion hres
          | (simp only [Except.ok.injEq] at hres
             subst hres
             simp only [Bool.and_eq_true]
             refine ⟨⟨?_, ?_⟩, subsetKeys_refl _⟩ <;>
               (rw [subsetKeys_iff]
                exact fun k hk => (List.mem_filter.mp hk).1))

/-- C10.  When no descriptor is retained for a route in the render state's
descriptor map, `getGesturesEnabled` returns `false`, regardless of platform. -/
theorem gesturesDisabled_without_descriptor (platformOS : String)
    (state : State) (route : Route)
    (h : dlookup state.descriptors route.key = none) :
    getGesturesEnabled platformOS state route = false := by
  unfold getGesturesEnabled
  rw [h]

/-- C10, witness: route X has no descriptor in `settledAB`. -/
theorem gesturesDisabled_without_descriptor_witness :
    getGesturesEnabled "ios" settledAB routeX = false :=
  gesturesDisabled_without_descriptor "ios" settledAB routeX (by decide)

end StackView
